import Mathlib

/-!
Verification development for the GDB2SQLite converter
(`src/gdb_to_spatialite.py`).

The file shallowly embeds the pure logic of the converter:

* `convert_code_to_int` — `GDBMetadataExtractor._convert_code_to_int`
* `parse_domains_from_xml`, `parse_single_domain`, `extract_coded_value` —
  the regex-tolerant domain-catalog parsing
* `extract_domain_values`, `extract_field_aliases` — the per-field
  fallback waterfalls (OGR accessors modelled as per-field inputs)
* `apply_field_aliases`, `apply_domain_values`, `apply_all_metadata` —
  the SQLite side-table writer `SpatialiteMetadataApplier`
* `prepare_max_workers`, `convert_mode` — the worker-count collapsing in
  `GDBToSpatialiteConverter`
* `convert_layer_with_ogr2ogr` — the per-layer subprocess result handling

Python's per-process randomized string hash (used by
`_convert_code_to_int` for multi-character non-numeric codes) is modelled
as an explicit function parameter `h : String → Int` throughout.
-/

set_option maxRecDepth 8000

/-! ## Python string primitives -/

/-- Whitespace characters stripped by Python's `int(...)` and `str.strip()`
(restricted to the ASCII whitespace class, which covers every input used by
the program). -/
def isPySpace (c : Char) : Bool :=
  c = ' ' || c = '\t' || c = '\n' || c = '\x0b' || c = '\x0c' || c = '\r'

/-- Models Python `str.strip()` on a list of characters. -/
def pyStrip (l : List Char) : List Char :=
  ((l.dropWhile isPySpace).reverse.dropWhile isPySpace).reverse

/-- Code points of the DIGIT ZERO of every run of Unicode decimal digits
(category Nd): each run is ten consecutive code points valued 0 to 9.
CPython's `int(...)` accepts exactly these characters as digits; the list
is generated from the Unicode character database of the interpreter that
runs the program (Python 3.11). -/
def pyDigitZeros : List Nat :=
  [48, 1632, 1776, 1984, 2406, 2534, 2662, 2790, 2918, 3046, 3174, 3302,
   3430, 3558, 3664, 3792, 3872, 4160, 4240, 6112, 6160, 6470, 6608, 6784,
   6800, 6992, 7088, 7232, 7248, 42528, 43216, 43264, 43472, 43504, 43600,
   44016, 65296, 66720, 68912, 69734, 69872, 69942, 70096, 70384, 70736,
   70864, 71248, 71360, 71472, 71904, 72016, 72784, 73040, 73120, 92768,
   92864, 93008, 120782, 120792, 120802, 120812, 120822, 123200, 123632,
   125264, 130032]

/-- Decimal value of a Unicode decimal digit (category Nd), exactly the
characters Python's `int(...)` accepts as digits; `none` otherwise. -/
def pyDigitVal? (c : Char) : Option Nat :=
  (pyDigitZeros.find? (fun z => decide (z ≤ c.toNat ∧ c.toNat ≤ z + 9))).map
    (fun z => c.toNat - z)

/-- Value of a nonempty run of Unicode decimal digits, base 10. -/
def digitsToNat? (ds : List Char) : Option Nat :=
  if ds ≠ [] ∧ ds.all (fun c => (pyDigitVal? c).isSome) then
    some (ds.foldl (fun a c => 10 * a + (pyDigitVal? c).getD 0) 0)
  else none

/-- Models Python `int(s)` on strings: optional surrounding whitespace, an
optional sign, then Unicode decimal digits; `none` models `ValueError`.
(Stripping is restricted to ASCII whitespace and underscore digit-grouping
is not modelled: a non-ASCII whitespace character is not a digit either,
so on the single-character inputs the normalizer claims range over, both
restrictions are invisible — the result is `none` either way.) -/
def pyIntOfString? (s : String) : Option Int :=
  match pyStrip s.toList with
  | '+' :: ds => (digitsToNat? ds).map Int.ofNat
  | '-' :: ds => (digitsToNat? ds).map (fun n => -(Int.ofNat n))
  | ds => (digitsToNat? ds).map Int.ofNat

/-- Python truthiness of an optional string (`None` and `""` are falsy). -/
def pyTruthyStr : Option String → Bool
  | none => false
  | some s => s ≠ ""

/-! ## CodeNormalizer (`GDBMetadataExtractor._convert_code_to_int`)

Source: try `int(code_str)`; else if the length is exactly one character,
`ord(code_str)`; else `abs(hash(code_str)) % 1000000`.  `hash` is Python's
per-process randomized string hash, taken here as the parameter `h`. -/

def convert_code_to_int (h : String → Int) (code_str : String) : Int :=
  match pyIntOfString? code_str with
  | some n => n
  | none =>
    match code_str.toList with
    | [c] => (c.toNat : Int)
    | _ => ((h code_str).natAbs : Int) % 1000000

/-! ## HTML entity decoding

Models `html.unescape` restricted to the five predefined XML entities the
source docstring names (`&amp;`, `&lt;`, `&gt;`, `&quot;`, `&apos;`);
other text passes through unchanged. -/

def htmlUnescape : List Char → List Char
  | '&' :: 'a' :: 'm' :: 'p' :: ';' :: rest => '&' :: htmlUnescape rest
  | '&' :: 'l' :: 't' :: ';' :: rest => '<' :: htmlUnescape rest
  | '&' :: 'g' :: 't' :: ';' :: rest => '>' :: htmlUnescape rest
  | '&' :: 'q' :: 'u' :: 'o' :: 't' :: ';' :: rest => '"' :: htmlUnescape rest
  | '&' :: 'a' :: 'p' :: 'o' :: 's' :: ';' :: rest => Char.ofNat 39 :: htmlUnescape rest
  | c :: rest => c :: htmlUnescape rest
  | [] => []

/-! ## Association-list dictionary

Models both a Python `dict` under key assignment (`d[k] = v`: replace the
value in place if the key exists, else append) and a SQLite table under
`INSERT OR REPLACE` keyed by its primary key (same key-to-value and
row-count semantics). -/

def dictInsert {α β : Type} [DecidableEq α] (k : α) (v : β) : List (α × β) → List (α × β)
  | [] => [(k, v)]
  | p :: ps => if p.1 = k then (k, v) :: ps else p :: dictInsert k v ps

def dictLookup {α β : Type} [DecidableEq α] (k : α) : List (α × β) → Option β
  | [] => none
  | p :: ps => if p.1 = k then some p.2 else dictLookup k ps

/-- Key presence test for the dictionary model. -/
def hasKey {α β : Type} [DecidableEq α] (k : α) (d : List (α × β)) : Bool :=
  (dictLookup k d).isSome

/-! ### Folding key-value rows into the dictionary -/

/-- Inserting a list of rows, left to right (the order the source iterates). -/
def insertRows {α β : Type} [DecidableEq α] (rows : List (α × β))
    (d : List (α × β)) : List (α × β) :=
  rows.foldl (fun acc kv => dictInsert kv.1 kv.2 acc) d

/-- Value found for a key by taking the LAST row with that key, if any. -/
def lastAssoc {α β : Type} [DecidableEq α] (k : α) : List (α × β) → Option β
  | [] => none
  | p :: ps =>
    match lastAssoc k ps with
    | some v => some v
    | none => if p.1 = k then some p.2 else none

/-! ## Tolerant pattern matching (`GDBMetadataExtractor._parse_domains_from_xml` helpers)

The source extracts domain blocks with `re.findall` over patterns of the
shape `<TAG[^>]*>.*?</TAG>` (flags `DOTALL | IGNORECASE`), and tag values
with `re.search` over `<TAG>([^<]+)</TAG>` / `<TAG[^>]*>([^<]+)</TAG>`
(flag `IGNORECASE`).  Because `[^>]` can never cross a `>` and `[^<]` can
never cross a `<`, each of these patterns matches deterministically: the
scanners below reproduce the exact leftmost, non-overlapping, lazy-close
semantics of those specific patterns. -/

/-- Case-insensitive literal match at the head: returns the remainder of
`s` after `pat`, if `pat` is a prefix (up to ASCII case). -/
def dropCI : List Char → List Char → Option (List Char)
  | [], s => some s
  | _ :: _, [] => none
  | p :: ps, c :: cs => if p.toLower = c.toLower then dropCI ps cs else none

/-- Consume `[^>]*>` — everything up to and including the first `>`. -/
def consumeToGt : List Char → Option (List Char)
  | [] => none
  | c :: cs => if c = '>' then some cs else consumeToGt cs

/-- Match the opening pattern `<TAG[^>]*>` at the head of `s`, returning
the remainder after the closing `>`. -/
def matchOpenTag (tag : List Char) (s : List Char) : Option (List Char) :=
  match dropCI ('<' :: tag) s with
  | none => none
  | some rest => consumeToGt rest

/-- Lazy scan for the closing literal: finds the earliest occurrence of
`close` (case-insensitively) and returns the consumed characters
(including the occurrence itself, in original case) and the remainder. -/
def scanClose (close : List Char) : List Char → Option (List Char × List Char)
  | [] => none
  | c :: cs =>
    match dropCI close (c :: cs) with
    | some rest => some ((c :: cs).take close.length, rest)
    | none =>
      match scanClose close cs with
      | some (m, r) => some (c :: m, r)
      | none => none

/-- One step of `re.findall` for `<TAG[^>]*>.*?</TAG>`: fuel-indexed scan
(each step strictly shortens the text, so `s.length` fuel is never
exhausted). -/
def findBlocksAux (tag close : List Char) : Nat → List Char → List (List Char)
  | 0, _ => []
  | _ + 1, [] => []
  | fuel + 1, c :: cs =>
    match matchOpenTag tag (c :: cs) with
    | some afterOpen =>
      match scanClose close afterOpen with
      | some (inner, rest) =>
        ((c :: cs).take ((c :: cs).length - afterOpen.length) ++ inner) ::
          findBlocksAux tag close fuel rest
      | none => findBlocksAux tag close fuel cs
    | none => findBlocksAux tag close fuel cs

/-- Models `re.findall(r"<TAG[^>]*>.*?</TAG>", s, re.DOTALL | re.IGNORECASE)`,
returning the full matched blocks. -/
def findBlocks (tag : String) (s : List Char) : List (List Char) :=
  findBlocksAux tag.toList ('<' :: '/' :: (tag.toList ++ ['>'])) s.length s

/-- Attempt `<TAG>([^<]+)</TAG>` anchored at the head of `s`; returns the
group. -/
def tryTagValuePlain (tag : List Char) (s : List Char) : Option (List Char) :=
  match dropCI ('<' :: (tag ++ ['>'])) s with
  | none => none
  | some rest =>
    let grp := rest.takeWhile (fun c => c ≠ '<')
    let rest2 := rest.dropWhile (fun c => c ≠ '<')
    if grp = [] then none
    else
      match dropCI ('<' :: '/' :: (tag ++ ['>'])) rest2 with
      | some _ => some grp
      | none => none

/-- Attempt `<TAG[^>]*>([^<]+)</TAG>` anchored at the head of `s`. -/
def tryTagValueAttr (tag : List Char) (s : List Char) : Option (List Char) :=
  match matchOpenTag tag s with
  | none => none
  | some rest =>
    let grp := rest.takeWhile (fun c => c ≠ '<')
    let rest2 := rest.dropWhile (fun c => c ≠ '<')
    if grp = [] then none
    else
      match dropCI ('<' :: '/' :: (tag ++ ['>'])) rest2 with
      | some _ => some grp
      | none => none

/-- Models `re.search(r"<TAG>([^<]+)</TAG>", s, re.IGNORECASE)`. -/
def searchTagValuePlain (tag : List Char) : List Char → Option (List Char)
  | [] => none
  | c :: cs =>
    match tryTagValuePlain tag (c :: cs) with
    | some g => some g
    | none => searchTagValuePlain tag cs

/-- Models `re.search(r"<TAG[^>]*>([^<]+)</TAG>", s, re.IGNORECASE)`. -/
def searchTagValueAttr (tag : List Char) : List Char → Option (List Char)
  | [] => none
  | c :: cs =>
    match tryTagValueAttr tag (c :: cs) with
    | some g => some g
    | none => searchTagValueAttr tag cs

/-! ## DomainCatalogParser (`_parse_domains_from_xml` and friends) -/

/-- Models `GDBMetadataExtractor._extract_coded_value`: extract the code
text via `<Code[^>]*>([^<]+)</Code>` (the two `xsi:type` variants the
source tries next are special cases of this pattern, so they can never
match when it fails), the description via `<Name>([^<]+)</Name>` then
`<Name[^>]*>([^<]+)</Name>`, reject empty results, HTML-unescape the
description and normalize the code with `_convert_code_to_int`. -/
def extract_coded_value (h : String → Int) (coded_xml : List Char) : Option (Int × String) :=
  let code? := (searchTagValueAttr "code".toList coded_xml).map (fun g => String.mk (pyStrip g))
  let name? :=
    match searchTagValuePlain "name".toList coded_xml with
    | some g => some (String.mk (pyStrip g))
    | none => (searchTagValueAttr "name".toList coded_xml).map (fun g => String.mk (pyStrip g))
  match code?, name? with
  | some cs, some ds =>
    if cs = "" ∨ ds = "" then none
    else some (convert_code_to_int h cs, String.mk (htmlUnescape ds.toList))
  | _, _ => none

/-- Models `GDBMetadataExtractor._parse_single_domain`: domain name from
`<DomainName>([^<]+)</DomainName>` (attr variant as fallback), stripped;
coded-value sub-blocks from `<CodedValue[^>]*>.*?</CodedValue>`, each fed
to `extract_coded_value`, accumulated with Python dict assignment keyed by
the integer code. -/
def parse_single_domain (h : String → Int) (domain_xml : List Char) :
    Option String × List (Int × String) :=
  let name? :=
    match searchTagValuePlain "domainname".toList domain_xml with
    | some g => some g
    | none => searchTagValueAttr "domainname".toList domain_xml
  match name? with
  | none => (none, [])
  | some g =>
    let dn := String.mk (pyStrip g)
    if dn = "" then (none, [])
    else
      let blocks := findBlocks "codedvalue" domain_xml
      let coded_values := blocks.foldl
        (fun acc cb =>
          match extract_coded_value h cb with
          | some cd => dictInsert cd.1 cd.2 acc
          | none => acc) []
      (some dn, coded_values)

/-- All domain blocks of the text: `findall` with the primary tag variant
`GPCodedValueDomain2`, then the legacy variant `GPCodedValueDomain`, in
source order. -/
def domain_blocks (s : List Char) : List (List Char) :=
  findBlocks "GPCodedValueDomain2" s ++ findBlocks "GPCodedValueDomain" s

/-- One iteration of the block loop in `_parse_domains_from_xml`: keep the
block only if it yielded a (truthy) domain name and a nonempty code map;
Python dict assignment gives later blocks precedence on a name collision. -/
def parse_step (h : String → Int) (d : List (String × List (Int × String)))
    (b : List Char) : List (String × List (Int × String)) :=
  match parse_single_domain h b with
  | (some n, cvs) => if n ≠ "" ∧ cvs ≠ [] then dictInsert n cvs d else d
  | (none, _) => d

/-- Models `GDBMetadataExtractor._parse_domains_from_xml`. -/
def parse_domains_from_xml (h : String → Int) (xml_content : String) :
    List (String × List (Int × String)) :=
  (domain_blocks xml_content.toList).foldl (parse_step h) []

/-! ## MetadataFallbackResolver (`GDBMetadataExtractor.extract_domain_values`)

The OGR driver is an external collaborator (spec section 6), so the values
its accessors would return for one field — layer metadata, datasource
metadata, field metadata (absent when the field object has no
`GetMetadata` attribute), and raw-data sampling — are modelled as
per-field inputs.  `extract_domain_for_field` additionally records which
tiers were invoked (1 = catalog lookup, 2 = layer metadata,
3 = datasource metadata, 4 = field metadata, 5 = raw-data sampling),
mirroring the call-count instrumentation the spec describes. -/

structure TierSources where
  layerMeta : List (Int × String)
  dsMeta : List (Int × String)
  fieldMeta : Option (List (Int × String))
  dataValues : List (Int × String)

structure FieldDef where
  name : String
  domainName : Option String
  tiers : TierSources

/-- Models the per-field body of `extract_domain_values` (source lines
331-378): nothing at all happens unless the field declares a truthy
domain name; then tier 1 always performs the catalog lookup, and each
lower tier runs only while the accumulated result is still empty. -/
def extract_domain_for_field (catalog : List (String × List (Int × String)))
    (fd : FieldDef) : List (Int × String) × List Nat :=
  if pyTruthyStr fd.domainName then
    let dn := fd.domainName.getD ""
    let st : List (Int × String) × List Nat :=
      (match dictLookup dn catalog with
       | some cm => cm
       | none => [], [1])
    let st := if st.1 = [] then (fd.tiers.layerMeta, st.2 ++ [2]) else st
    let st := if st.1 = [] then (fd.tiers.dsMeta, st.2 ++ [3]) else st
    let st := if st.1 = [] then
        (match fd.tiers.fieldMeta with
         | some m => (m, st.2 ++ [4])
         | none => st)
      else st
    let st := if st.1 = [] then (fd.tiers.dataValues, st.2 ++ [5]) else st
    st
  else ([], [])

/-- One iteration of the field loop of `extract_domain_values`: a field
contributes a key only when its waterfall produced a nonempty code map. -/
def domain_field_step (catalog : List (String × List (Int × String)))
    (d : List (String × List (Int × String))) (fd : FieldDef) :
    List (String × List (Int × String)) :=
  let dv := (extract_domain_for_field catalog fd).1
  if dv ≠ [] then dictInsert fd.name dv d else d

/-- Models `GDBMetadataExtractor.extract_domain_values` over the fields of
one layer. -/
def extract_domain_values (catalog : List (String × List (Int × String)))
    (fields : List FieldDef) : List (String × List (Int × String)) :=
  fields.foldl (domain_field_step catalog) []

/-! ## Field-alias extraction (`GDBMetadataExtractor.extract_field_aliases`)

The four alias sources per field (source lines 240-294) are modelled as
per-field inputs: `GetAlternativeNameRef`, the layer-metadata key guesses,
the datasource-metadata key guesses, and the field-metadata
`ALIAS`/`ALTERNATIVE_NAME` keys.  Each source yields `none` when the
accessor is absent, raises (swallowed), or finds no key. -/

structure AliasSources where
  altNameRef : Option String
  layerMeta : Option String
  dsMeta : Option String
  fieldMeta : Option String

structure AliasFieldDef where
  name : String
  sources : AliasSources

/-- Python `if not alias:` chaining: keep the current value when truthy,
otherwise move to the next source. -/
def pyOrStr (a b : Option String) : Option String :=
  if pyTruthyStr a then a else b

/-- The method 1 → 4 waterfall for one field.  (When every source is
falsy the Python variable may end as `None` or `""`; both fail the
recording guard below, so collapsing them to the last source loses
nothing observable.) -/
def resolve_alias (s : AliasSources) : Option String :=
  pyOrStr s.altNameRef (pyOrStr s.layerMeta (pyOrStr s.dsMeta s.fieldMeta))

/-- One iteration of the field loop of `extract_field_aliases`: record the
alias only when it is truthy and differs from the field name (source line
296). -/
def alias_field_step (d : List (String × String)) (fd : AliasFieldDef) :
    List (String × String) :=
  match resolve_alias fd.sources with
  | some a => if a ≠ "" ∧ a ≠ fd.name then dictInsert fd.name a d else d
  | none => d

/-- Models `GDBMetadataExtractor.extract_field_aliases`. -/
def extract_field_aliases (fields : List AliasFieldDef) : List (String × String) :=
  fields.foldl alias_field_step []

/-! ## MetadataOverlayStore (`SpatialiteMetadataApplier`)

The destination store is modelled by the two overlay side tables; `none`
means the table does not exist, `some rows` a table whose rows are keyed
by the composite primary key (`INSERT OR REPLACE` = `dictInsert`).
`apply_primary_keys` only touches the converted data table (a unique
index) and `apply_triggers` only runs caller-supplied trigger SQL; neither
ever writes either side table, so they do not appear in this state. -/

structure SpatialiteDB where
  fieldAliasTable : Option (List ((String × String) × String))
  domainValueTable : Option (List ((String × String × Int) × String))

/-- Models `SpatialiteMetadataApplier.apply_field_aliases` (source lines
1152-1195): with no aliases it returns success immediately — the
`CREATE TABLE IF NOT EXISTS` is skipped; otherwise it creates the table
if needed and upserts one row per alias. -/
def apply_field_aliases (db : SpatialiteDB) (table_name : String)
    (aliases : List (String × String)) : SpatialiteDB × Bool :=
  if aliases = [] then (db, true)
  else
    let rows := aliases.map (fun fa => ((table_name, fa.1), fa.2))
    ({ db with fieldAliasTable := some (insertRows rows (db.fieldAliasTable.getD [])) },
     true)

/-- Models `SpatialiteMetadataApplier.apply_domain_values` (source lines
1197-1251): the table is always created ("Toujours créer la table même si
vide"), then one row is upserted per (field, code). -/
def apply_domain_values (db : SpatialiteDB) (table_name : String)
    (domain_values : List (String × List (Int × String))) : SpatialiteDB × Bool :=
  let tbl0 := db.domainValueTable.getD []
  if domain_values = [] then
    ({ db with domainValueTable := some tbl0 }, true)
  else
    let tbl := domain_values.foldl
      (fun acc fv => fv.2.foldl
        (fun a cd => dictInsert (table_name, fv.1, cd.1) cd.2 a) acc) tbl0
    ({ db with domainValueTable := some tbl }, true)

/-- Models `SpatialiteMetadataApplier.apply_all_metadata` restricted to
the two side tables (primary-key and trigger application touch neither;
their success flags are aggregated the same way with logical AND). -/
def apply_all_metadata (db : SpatialiteDB) (table_name : String)
    (aliases : List (String × String))
    (domain_values : List (String × List (Int × String))) : SpatialiteDB × Bool :=
  let r1 := apply_field_aliases db table_name aliases
  let r2 := apply_domain_values r1.1 table_name domain_values
  (r2.1, r1.2 && r2.2)

/-- Row count of the alias side table (0 when the table does not exist). -/
def aliasRowCount (db : SpatialiteDB) : Nat :=
  (db.fieldAliasTable.getD []).length

/-- Row count of the domain-value side table. -/
def domainRowCount (db : SpatialiteDB) : Nat :=
  (db.domainValueTable.getD []).length

/-! ## ConversionOrchestrator (`GDBToSpatialiteConverter`)

Every layer of one run is written into the single file
`self.output_path`, so "more than one layer" means "more than one layer
sharing one destination". -/

/-- Models the worker-count collapse in `_prepare_conversion` (source
lines 1740-1753): with more than one layer and more than one requested
worker, the effective count becomes 1. -/
def prepare_max_workers (num_layers requested_workers : Nat) : Nat :=
  if 1 < num_layers ∧ 1 < requested_workers then 1 else requested_workers

inductive ExecMode where
  | sequential
  | parallel (workers : Nat)

/-- Models `_convert_with_ogr2ogr_parallel` (source lines 1985-1999): the
same collapse is re-applied as an extra safety check, then the layers run
sequentially exactly when the resulting count is 1. -/
def convert_with_ogr2ogr_mode (num_layers max_workers : Nat) : ExecMode :=
  let w := if 1 < num_layers ∧ 1 < max_workers then 1 else max_workers
  if w = 1 then ExecMode.sequential else ExecMode.parallel w

/-- Models `convert`: `_prepare_conversion` fixes the worker count, then
the ogr2ogr path dispatches with it. -/
def convert_mode (num_layers requested_workers : Nat) : ExecMode :=
  convert_with_ogr2ogr_mode num_layers (prepare_max_workers num_layers requested_workers)

/-! ## Per-layer subprocess supervision (`_convert_layer_with_ogr2ogr`)

The external ogr2ogr run is a collaborator; its observable outcome is
either the captured output lines plus exit code that
`ProcessMonitor.wait_for_completion` returns, or an exception raised while
constructing or running the subprocess. -/

inductive ProcOutcome where
  | completed (output_lines : List String) (return_code : Int)
  | raised (msg : String)

/-- The last `n` elements, as Python `l[-n:]` (whole list when shorter). -/
def lastN {α : Type} (n : Nat) (l : List α) : List α :=
  l.drop (l.length - n)

/-- Models `GDBToSpatialiteConverter._convert_layer_with_ogr2ogr` (source
lines 1650-1681): exit code 0 is success with an empty diagnostic; a
non-zero exit code is a failure whose diagnostic joins the last 10
captured lines; an exception is a failure carrying the exception text. -/
def convert_layer_with_ogr2ogr (layer_name : String) (outcome : ProcOutcome) :
    String × Bool × String :=
  match outcome with
  | ProcOutcome.completed lines rc =>
    if rc = 0 then (layer_name, true, "")
    else (layer_name, false, String.intercalate "\n" (lastN 10 lines))
  | ProcOutcome.raised msg => (layer_name, false, msg)

/-! ## Derived definitions used by the statements -/

/-- The contribution of one matched block to the catalog: `some` exactly
when the block survives the guard in `_parse_domains_from_xml`. -/
def goodBlock (h : String → Int) (b : List Char) :
    Option (String × List (Int × String)) :=
  match parse_single_domain h b with
  | (some n, cvs) => if n ≠ "" ∧ cvs ≠ [] then some (n, cvs) else none
  | (none, _) => none

/-- The domain-value rows inserted for one table, flattened in the order
the nested loops of `apply_domain_values` visit them. -/
def domainRows (table_name : String) :
    List (String × List (Int × String)) → List ((String × String × Int) × String)
  | [] => []
  | fv :: rest =>
    fv.2.map (fun cd => ((table_name, fv.1, cd.1), cd.2)) ++ domainRows table_name rest

/-! ## Concrete inputs used by the closed statements -/

/-- The synthetic catalog text of spec section 8. -/
def c5Input : String :=
  "<GPCodedValueDomain2><DomainName>Statut</DomainName><CodedValue><Code>1</Code><Name>Actif</Name></CodedValue><CodedValue><Code>2</Code><Name>Inactif</Name></CodedValue></GPCodedValueDomain2>"

/-- A one-domain catalog text used to instantiate the tier-ordering
theorem. -/
def tierXml : String :=
  "<GPCodedValueDomain2><DomainName>D</DomainName><CodedValue><Code>1</Code><Name>x</Name></CodedValue></GPCodedValueDomain2>"

/-- A field declaring domain `D`, whose lower-tier sources are all
nonempty — so any (forbidden) fallback invocation would be visible in the
result. -/
def tierField : FieldDef :=
  { name := "F"
  , domainName := some "D"
  , tiers :=
    { layerMeta := [(7, "layer")]
    , dsMeta := [(8, "ds")]
    , fieldMeta := some [(9, "field")]
    , dataValues := [(6, "data")] } }

/-- A field declaring no domain, with nonempty lower-tier sources. -/
def noDomainField : FieldDef :=
  { name := "G"
  , domainName := none
  , tiers :=
    { layerMeta := [(7, "layer")]
    , dsMeta := [(8, "ds")]
    , fieldMeta := some [(9, "field")]
    , dataValues := [(6, "data")] } }

/-- A field whose only alias source is a proper alternative name. -/
def aliasedField : AliasFieldDef :=
  { name := "NOM"
  , sources :=
    { altNameRef := some "Nom complet"
    , layerMeta := none
    , dsMeta := none
    , fieldMeta := none } }

/-- The empty destination store (neither overlay table exists yet). -/
def emptyDB : SpatialiteDB :=
  { fieldAliasTable := none, domainValueTable := none }
theorem dictLookup_dictInsert {α β : Type} [DecidableEq α] (k k' : α) (v : β)
    (d : List (α × β)) :
    dictLookup k' (dictInsert k v d) = if k' = k then some v else dictLookup k' d := by
  induction d with
  | nil =>
    simp only [dictInsert, dictLookup]
    by_cases hk : k' = k
    · rw [if_pos hk.symm, if_pos hk]
    · rw [if_neg (fun hh => hk hh.symm), if_neg hk]
  | cons p ps ih =>
    by_cases hp : p.1 = k
    · simp only [dictInsert, if_pos hp, dictLookup]
      by_cases hk : k' = k
      · rw [if_pos hk.symm, if_pos hk]
      · rw [if_neg (fun hh => hk hh.symm), if_neg hk,
          if_neg (fun hh => hk (hh.symm.trans hp))]
    · simp only [dictInsert, if_neg hp, dictLookup, ih]
      by_cases hpk : p.1 = k'
      · have hk : ¬ k' = k := fun hh => hp (hpk.trans hh)
        rw [if_pos hpk, if_neg hk, if_pos hpk]
      · rw [if_neg hpk, if_neg hpk]

theorem length_dictInsert {α β : Type} [DecidableEq α] (k : α) (v : β)
    (d : List (α × β)) :
    (dictInsert k v d).length = if hasKey k d then d.length else d.length + 1 := by
  induction d with
  | nil => simp [dictInsert, hasKey, dictLookup]
  | cons p ps ih =>
    by_cases hp : p.1 = k
    · simp [dictInsert, hasKey, dictLookup, hp]
    · have h1 : dictInsert k v (p :: ps) = p :: dictInsert k v ps := by
        simp [dictInsert, hp]
      have h2 : hasKey k (p :: ps) = hasKey k ps := by
        simp [hasKey, dictLookup, hp]
      rw [h1, List.length_cons, ih, h2]
      by_cases hk : hasKey k ps <;> simp [hk]

theorem hasKey_dictInsert {α β : Type} [DecidableEq α] (k k' : α) (v : β)
    (d : List (α × β)) :
    hasKey k' (dictInsert k v d) = (k' = k || hasKey k' d) := by
  by_cases hk : k' = k <;> simp [hasKey, dictLookup_dictInsert, hk]

theorem mem_dictInsert {α β : Type} [DecidableEq α] (k : α) (v : β)
    (d : List (α × β)) (p : α × β) :
    p ∈ dictInsert k v d → p = (k, v) ∨ p ∈ d := by
  induction d with
  | nil => simp [dictInsert]
  | cons q qs ih =>
    by_cases hq : q.1 = k
    · simp only [dictInsert, hq, if_pos]
      intro hp
      rcases List.mem_cons.mp hp with hp | hp
      · exact Or.inl hp
      · exact Or.inr (List.mem_cons_of_mem q hp)
    · simp only [dictInsert, hq, if_neg, not_false_iff]
      intro hp
      rcases List.mem_cons.mp hp with hp | hp
      · exact Or.inr (hp ▸ List.mem_cons_self q qs)
      · rcases ih hp with hp' | hp'
        · exact Or.inl hp'
        · exact Or.inr (List.mem_cons_of_mem q hp')

theorem hasKey_insertRows_of_hasKey {α β : Type} [DecidableEq α]
    (rows : List (α × β)) (d : List (α × β)) (x : α) (hx : hasKey x d = true) :
    hasKey x (insertRows rows d) = true := by
  induction rows generalizing d with
  | nil => exact hx
  | cons kv rows ih =>
    apply ih
    rw [hasKey_dictInsert]
    simp [hx]

theorem hasKey_insertRows_of_mem {α β : Type} [DecidableEq α]
    (rows : List (α × β)) (d : List (α × β)) (kv : α × β) (hkv : kv ∈ rows) :
    hasKey kv.1 (insertRows rows d) = true := by
  induction rows generalizing d with
  | nil => cases hkv
  | cons kv' rows ih =>
    have hstep : insertRows (kv' :: rows) d = insertRows rows (dictInsert kv'.1 kv'.2 d) := rfl
    rw [hstep]
    rcases List.mem_cons.mp hkv with h | h
    · subst h
      apply hasKey_insertRows_of_hasKey
      rw [hasKey_dictInsert]
      simp
    · exact ih _ h

theorem length_insertRows_of_hasKey {α β : Type} [DecidableEq α]
    (rows : List (α × β)) (d : List (α × β))
    (hall : ∀ kv ∈ rows, hasKey kv.1 d = true) :
    (insertRows rows d).length = d.length := by
  induction rows generalizing d with
  | nil => rfl
  | cons kv rows ih =>
    have hk : hasKey kv.1 d = true := hall kv (List.mem_cons_self _ _)
    have hstep : (dictInsert kv.1 kv.2 d).length = d.length := by
      rw [length_dictInsert, if_pos hk]
    have hall' : ∀ p ∈ rows, hasKey p.1 (dictInsert kv.1 kv.2 d) = true := by
      intro p hp
      rw [hasKey_dictInsert]
      simp [hall p (List.mem_cons_of_mem _ hp)]
    calc (insertRows (kv :: rows) d).length
        = (insertRows rows (dictInsert kv.1 kv.2 d)).length := rfl
      _ = (dictInsert kv.1 kv.2 d).length := ih _ hall'
      _ = d.length := hstep

theorem length_insertRows_twice {α β : Type} [DecidableEq α]
    (rows : List (α × β)) (d : List (α × β)) :
    (insertRows rows (insertRows rows d)).length = (insertRows rows d).length := by
  apply length_insertRows_of_hasKey
  intro kv hkv
  exact hasKey_insertRows_of_mem rows d kv hkv

theorem dictLookup_insertRows {α β : Type} [DecidableEq α] (k : α)
    (rows : List (α × β)) (d : List (α × β)) :
    dictLookup k (insertRows rows d) =
      match lastAssoc k rows with
      | some v => some v
      | none => dictLookup k d := by
  induction rows generalizing d with
  | nil => rfl
  | cons kv rows ih =>
    have hstep : insertRows (kv :: rows) d = insertRows rows (dictInsert kv.1 kv.2 d) := rfl
    rw [hstep, ih]
    cases hl : lastAssoc k rows with
    | some v => simp [lastAssoc, hl]
    | none =>
      by_cases hk : kv.1 = k
      · simp [lastAssoc, hl, hk, dictLookup_dictInsert]
      · have hk' : ¬ k = kv.1 := fun hh => hk hh.symm
        simp [lastAssoc, hl, hk, dictLookup_dictInsert, hk']

/-! ## Claim C3: worker-count collapsing -/

/-- C3: for every requested worker count above one and every run of more
than one layer (all layers of a run target the single destination file
`self.output_path`), `_prepare_conversion` collapses the effective worker
count to 1 and the dispatch in `_convert_with_ogr2ogr_parallel` therefore
takes the sequential branch, regardless of the caller's requested count. -/
theorem C3_worker_collapse (num_layers requested : Nat)
    (hn : 1 < num_layers) (hw : 1 < requested) :
    prepare_max_workers num_layers requested = 1 ∧
    convert_mode num_layers requested = ExecMode.sequential := by
  constructor
  · simp [prepare_max_workers, hn, hw]
  · simp [convert_mode, convert_with_ogr2ogr_mode, prepare_max_workers, hn, hw]

theorem C3_worker_collapse_witness :
    (1 < 2 ∧ 1 < 4) ∧
    (prepare_max_workers 2 4 = 1 ∧ convert_mode 2 4 = ExecMode.sequential) :=
  ⟨by decide, C3_worker_collapse 2 4 (by decide) (by decide)⟩

/-! ## Claim C7: per-layer subprocess failures become failure results -/

/-- C7: a supervised per-layer conversion whose subprocess exits with a
non-zero return code yields a failure result whose diagnostic is the last
10 captured output lines joined by newlines, and an exception raised while
constructing or running the subprocess yields a failure result carrying
the exception text (the conversion call itself is total — nothing
propagates). -/
theorem C7_subprocess_failure (layer_name : String) (lines : List String)
    (rc : Int) (msg : String) (hrc : rc ≠ 0) :
    convert_layer_with_ogr2ogr layer_name (ProcOutcome.completed lines rc)
      = (layer_name, false, String.intercalate "\n" (lastN 10 lines)) ∧
    convert_layer_with_ogr2ogr layer_name (ProcOutcome.raised msg)
      = (layer_name, false, msg) := by
  constructor
  · simp [convert_layer_with_ogr2ogr, hrc]
  · rfl

theorem C7_subprocess_failure_witness :
    ((1 : Int) ≠ 0) ∧
    (convert_layer_with_ogr2ogr "Routes" (ProcOutcome.completed ["a", "b"] 1)
       = ("Routes", false, String.intercalate "\n" (lastN 10 ["a", "b"])) ∧
     convert_layer_with_ogr2ogr "Routes" (ProcOutcome.raised "boom")
       = ("Routes", false, "boom")) :=
  ⟨by decide, C7_subprocess_failure "Routes" ["a", "b"] 1 "boom" (by decide)⟩

/-! ## Claim C5: the synthetic two-value domain block parses exactly -/

/-- C5: parsing the exact text
`<GPCodedValueDomain2><DomainName>Statut</DomainName><CodedValue><Code>1</Code><Name>Actif</Name></CodedValue><CodedValue><Code>2</Code><Name>Inactif</Name></CodedValue></GPCodedValueDomain2>`
returns exactly the mapping Statut -> {1 -> Actif, 2 -> Inactif},
independently of the string-hash in use (the codes are numeric). -/
theorem C5_exact_parse (h : String → Int) :
    parse_domains_from_xml h c5Input = [("Statut", [(1, "Actif"), (2, "Inactif")])] := rfl

/-! ## Claim C2: single-character code normalization (corrected) -/

/-- C2 counterexample: the claim "for every single-character input the
normalizer returns the ordinal, and is injective on single characters" is
false on the code: `int(code_str)` is tried first, so the single
character `5` maps to the integer 5 — not to its ordinal 53 — and it
collides with the single character U+0005, whose ordinal is also 5. -/
theorem C2_counterexample :
    convert_code_to_int (fun _ => 0) "5" = 5 ∧
    (('5').toNat : Int) = 53 ∧ ((5 : Int) ≠ 53) ∧
    ("5" : String) ≠ "\x05" ∧
    convert_code_to_int (fun _ => 0) "\x05" = 5 := by decide

/-- C2 amended: for every single-character input that does NOT parse as a
base-10 integer, the normalizer returns the character's ordinal, and on
that restricted input space it is injective; digit characters instead
return their numeric value.  (Independent of the string hash: the hash
path is reserved for longer codes.) -/
theorem C2_single_char_amended (h : String → Int) (c d : Char)
    (hc : pyIntOfString? (String.mk [c]) = none)
    (hd : pyIntOfString? (String.mk [d]) = none) :
    convert_code_to_int h (String.mk [c]) = (c.toNat : Int) ∧
    (convert_code_to_int h (String.mk [c]) = convert_code_to_int h (String.mk [d]) →
      c = d) := by
  have hone : ∀ (e : Char), pyIntOfString? (String.mk [e]) = none →
      convert_code_to_int h (String.mk [e]) = (e.toNat : Int) := by
    intro e he
    unfold convert_code_to_int
    rw [he]
    rfl
  refine ⟨hone c hc, ?_⟩
  intro heq
  rw [hone c hc, hone d hd] at heq
  have hnat : c.toNat = d.toNat := by exact_mod_cast heq
  exact Char.ext (UInt32.ext hnat)

theorem C2_single_char_amended_witness :
    pyIntOfString? (String.mk ['A']) = none ∧
    pyIntOfString? (String.mk ['B']) = none ∧
    (convert_code_to_int (fun _ => 0) (String.mk ['A']) = (('A').toNat : Int) ∧
     (convert_code_to_int (fun _ => 0) (String.mk ['A'])
        = convert_code_to_int (fun _ => 0) (String.mk ['B']) → 'A' = 'B')) :=
  ⟨by decide, by decide,
   C2_single_char_amended (fun _ => 0) 'A' 'B' (by decide) (by decide)⟩

/-! ## Claim C10: recorded aliases are nonempty and differ from the field name -/

/-- Invariant of the alias field loop: every recorded pair has a nonempty
alias distinct from its field name (the guard on source line 296). -/
theorem alias_fold_invariant (fields : List AliasFieldDef)
    (d : List (String × String)) (hd : ∀ p ∈ d, p.2 ≠ "" ∧ p.2 ≠ p.1) :
    ∀ p ∈ fields.foldl alias_field_step d, p.2 ≠ "" ∧ p.2 ≠ p.1 := by
  induction fields generalizing d with
  | nil => exact hd
  | cons fd fields ih =>
    have hstep : ∀ p ∈ alias_field_step d fd, p.2 ≠ "" ∧ p.2 ≠ p.1 := by
      intro p hp
      unfold alias_field_step at hp
      split at hp
      · rename_i a heq
        split at hp
        · rename_i hg
          rcases mem_dictInsert fd.name a d p hp with hp' | hp'
          · subst hp'
            exact hg
          · exact hd p hp'
        · exact hd p hp
      · exact hd p hp
    exact ih (alias_field_step d fd) hstep

/-- C10: the field-alias extraction never records an alias equal to the
field name and never records an empty alias. -/
theorem C10_alias_guard (fields : List AliasFieldDef) (f a : String)
    (hmem : (f, a) ∈ extract_field_aliases fields) :
    a ≠ "" ∧ a ≠ f :=
  alias_fold_invariant fields [] (by intro p hp; cases hp) (f, a) hmem

theorem C10_alias_guard_witness :
    (("NOM", "Nom complet") ∈ extract_field_aliases [aliasedField]) ∧
    ("Nom complet" ≠ "" ∧ "Nom complet" ≠ "NOM") :=
  ⟨by decide, C10_alias_guard [aliasedField] "NOM" "Nom complet" (by decide)⟩

/-! ## Claim C9: fields without a domain name are skipped entirely -/

/-- When the field declares no (truthy) domain name the whole per-field
body is skipped: no values and no tier invocation. -/
theorem extract_domain_for_field_falsy (catalog : List (String × List (Int × String)))
    (fd : FieldDef) (hfd : pyTruthyStr fd.domainName = false) :
    extract_domain_for_field catalog fd = ([], []) := by
  unfold extract_domain_for_field
  rw [hfd]
  rfl

/-- The layer loop never creates a key for a name all of whose fields are
domain-less. -/
theorem domain_fold_lookup_none (catalog : List (String × List (Int × String)))
    (f : String) :
    ∀ (fields : List FieldDef) (d : List (String × List (Int × String))),
    (∀ g ∈ fields, g.name = f → pyTruthyStr g.domainName = false) →
    dictLookup f d = none →
    dictLookup f (fields.foldl (domain_field_step catalog) d) = none := by
  intro fields
  induction fields with
  | nil => intro d _ hd; exact hd
  | cons g gs ih =>
    intro d hall hd
    have hstep : dictLookup f (domain_field_step catalog d g) = none := by
      simp only [domain_field_step]
      by_cases hg : (extract_domain_for_field catalog g).1 ≠ []
      · rw [if_pos hg, dictLookup_dictInsert]
        by_cases hname : g.name = f
        · have hfalsy := extract_domain_for_field_falsy catalog g
            (hall g (List.mem_cons_self g gs) hname)
          rw [hfalsy] at hg
          simp at hg
        · rw [if_neg (fun hh => hname hh.symm)]
          exact hd
      · rw [if_neg hg]
        exact hd
    exact ih (domain_field_step catalog d g)
      (fun g' hg' hn => hall g' (List.mem_cons_of_mem g hg') hn) hstep

/-- C9: a field whose definition declares no domain name (None or empty)
is assigned no code map at all — no fallback tier runs for it and, when
every field with that name is domain-less, the name never appears as a key
of the extraction result. -/
theorem C9_no_domain_no_key (catalog : List (String × List (Int × String)))
    (fields : List FieldDef) (fd : FieldDef) (f : String)
    (hfd : pyTruthyStr fd.domainName = false)
    (hall : ∀ g ∈ fields, g.name = f → pyTruthyStr g.domainName = false) :
    extract_domain_for_field catalog fd = ([], []) ∧
    dictLookup f (extract_domain_values catalog fields) = none :=
  ⟨extract_domain_for_field_falsy catalog fd hfd,
   domain_fold_lookup_none catalog f fields [] hall rfl⟩

theorem C9_no_domain_no_key_witness :
    (pyTruthyStr noDomainField.domainName = false) ∧
    (∀ g ∈ [noDomainField], g.name = "G" → pyTruthyStr g.domainName = false) ∧
    (extract_domain_for_field [] noDomainField = ([], []) ∧
     dictLookup "G" (extract_domain_values [] [noDomainField]) = none) :=
  ⟨by decide, by decide,
   C9_no_domain_no_key [] [noDomainField] noDomainField "G" (by decide) (by decide)⟩

/-! ## Claim C1: overlay-table creation (corrected) -/

/-- C1 counterexample: a completed metadata application with no recovered
aliases and no recovered domain values leaves `metadata_field_aliases`
nonexistent — `apply_field_aliases` returns success before its
`CREATE TABLE IF NOT EXISTS` when the alias dictionary is empty — while
`metadata_domain_values` is created unconditionally.  So "both side
tables exist; table creation is unconditional" is false on the code. -/
theorem C1_counterexample :
    (apply_all_metadata emptyDB "Routes" [] []).1.fieldAliasTable = none ∧
    (apply_all_metadata emptyDB "Routes" [] []).1.domainValueTable = some [] ∧
    (apply_all_metadata emptyDB "Routes" [] []).2 = true :=
  ⟨rfl, rfl, rfl⟩

/-- C1 amended: a completed metadata application always leaves
`metadata_domain_values` existing (its creation is unconditional) and
reports success, but `metadata_field_aliases` is only guaranteed to exist
when at least one alias is inserted; with no aliases, the alias table is
left exactly as it was (creation skipped). -/
theorem C1_table_creation_amended (db : SpatialiteDB) (table_name : String)
    (aliases : List (String × String))
    (dvs : List (String × List (Int × String)))
    (ha : aliases ≠ []) :
    ((apply_all_metadata db table_name aliases dvs).1.domainValueTable).isSome = true ∧
    ((apply_all_metadata db table_name aliases dvs).1.fieldAliasTable).isSome = true ∧
    (apply_all_metadata db table_name aliases dvs).2 = true ∧
    (apply_all_metadata db table_name [] dvs).1.fieldAliasTable = db.fieldAliasTable := by
  refine ⟨?_, ?_, ?_, ?_⟩
  · by_cases hd : dvs = [] <;>
      simp [apply_all_metadata, apply_field_aliases, apply_domain_values, ha, hd]
  · by_cases hd : dvs = [] <;>
      simp [apply_all_metadata, apply_field_aliases, apply_domain_values, ha, hd]
  · by_cases hd : dvs = [] <;>
      simp [apply_all_metadata, apply_field_aliases, apply_domain_values, ha, hd]
  · by_cases hd : dvs = [] <;>
      simp [apply_all_metadata, apply_field_aliases, apply_domain_values, hd]

theorem C1_table_creation_amended_witness :
    ([(("NOM" : String), ("Alias" : String))] ≠ []) ∧
    (((apply_all_metadata emptyDB "Routes" [("NOM", "Alias")] []).1.domainValueTable).isSome = true ∧
     ((apply_all_metadata emptyDB "Routes" [("NOM", "Alias")] []).1.fieldAliasTable).isSome = true ∧
     (apply_all_metadata emptyDB "Routes" [("NOM", "Alias")] []).2 = true ∧
     (apply_all_metadata emptyDB "Routes" [] []).1.fieldAliasTable = emptyDB.fieldAliasTable) :=
  ⟨by decide, C1_table_creation_amended emptyDB "Routes" [("NOM", "Alias")] [] (by decide)⟩

/-! ## Claim C6: metadata application is idempotent on row counts -/

/-- Re-inserting the same rows never changes the row count. -/
theorem length_insertRows_twice_eq {α β : Type} [DecidableEq α]
    (rows : List (α × β)) (d : List (α × β)) :
    (insertRows rows (insertRows rows d)).length = (insertRows rows d).length :=
  length_insertRows_of_hasKey rows (insertRows rows d)
    (fun kv hkv => hasKey_insertRows_of_mem rows d kv hkv)

/-- The nested field/code loops of `apply_domain_values` insert exactly
the flattened row list, in order. -/
theorem domain_fold_eq_insertRows (t : String)
    (dvs : List (String × List (Int × String)))
    (tbl : List ((String × String × Int) × String)) :
    dvs.foldl (fun acc fv => fv.2.foldl
        (fun a cd => dictInsert (t, fv.1, cd.1) cd.2 a) acc) tbl
      = insertRows (domainRows t dvs) tbl := by
  induction dvs generalizing tbl with
  | nil => rfl
  | cons fv rest ih =>
    have hinner : fv.2.foldl (fun a cd => dictInsert (t, fv.1, cd.1) cd.2 a) tbl
        = insertRows (fv.2.map (fun cd => ((t, fv.1, cd.1), cd.2))) tbl := by
      unfold insertRows
      rw [List.foldl_map]
    calc (fv :: rest).foldl (fun acc fv => fv.2.foldl
            (fun a cd => dictInsert (t, fv.1, cd.1) cd.2 a) acc) tbl
        = rest.foldl (fun acc fv => fv.2.foldl
            (fun a cd => dictInsert (t, fv.1, cd.1) cd.2 a) acc)
            (fv.2.foldl (fun a cd => dictInsert (t, fv.1, cd.1) cd.2 a) tbl) := rfl
      _ = insertRows (domainRows t rest)
            (insertRows (fv.2.map (fun cd => ((t, fv.1, cd.1), cd.2))) tbl) := by
            rw [hinner, ih]
      _ = insertRows (domainRows t (fv :: rest)) tbl := by
            have hrows : domainRows t (fv :: rest)
                = fv.2.map (fun cd => ((t, fv.1, cd.1), cd.2)) ++ domainRows t rest := rfl
            rw [hrows]
            unfold insertRows
            rw [List.foldl_append]

/-- C6: applying the same aliases and domain values twice to the same
table name leaves the row counts of both side tables unchanged after the
second application — every row goes in with replace-on-conflict semantics
keyed by its composite primary key. -/
theorem C6_apply_idempotent (db : SpatialiteDB) (t : String)
    (aliases : List (String × String))
    (dvs : List (String × List (Int × String))) :
    aliasRowCount (apply_all_metadata (apply_all_metadata db t aliases dvs).1 t aliases dvs).1
      = aliasRowCount (apply_all_metadata db t aliases dvs).1 ∧
    domainRowCount (apply_all_metadata (apply_all_metadata db t aliases dvs).1 t aliases dvs).1
      = domainRowCount (apply_all_metadata db t aliases dvs).1 := by
  constructor
  · by_cases ha : aliases = []
    · by_cases hd : dvs = [] <;>
        simp [apply_all_metadata, apply_field_aliases, apply_domain_values,
          aliasRowCount, ha, hd]
    · by_cases hd : dvs = [] <;>
        simp [apply_all_metadata, apply_field_aliases, apply_domain_values,
          aliasRowCount, ha, hd, length_insertRows_twice_eq]
  · by_cases hd : dvs = []
    · by_cases ha : aliases = [] <;>
        simp [apply_all_metadata, apply_field_aliases, apply_domain_values,
          domainRowCount, ha, hd]
    · by_cases ha : aliases = [] <;>
        simp [apply_all_metadata, apply_field_aliases, apply_domain_values,
          domainRowCount, ha, hd, domain_fold_eq_insertRows,
          length_insertRows_twice_eq]

/-! ## Claim C4: the catalog tier short-circuits the waterfall -/

/-- A block that fails the guard contributes nothing to the catalog. -/
theorem parse_step_of_bad (h : String → Int)
    (d : List (String × List (Int × String))) (b : List Char)
    (hb : goodBlock h b = none) : parse_step h d b = d := by
  unfold goodBlock at hb
  unfold parse_step
  rcases hps : parse_single_domain h b with ⟨n?, cvs⟩
  rw [hps] at hb
  cases n? with
  | none => rfl
  | some n =>
    simp only at hb ⊢
    by_cases hg : n ≠ "" ∧ cvs ≠ []
    · rw [if_pos hg] at hb
      cases hb
    · rw [if_neg hg]

/-- A block that passes the guard inserts exactly its parsed pair. -/
theorem parse_step_of_good (h : String → Int)
    (d : List (String × List (Int × String))) (b : List Char)
    (n : String) (cvs : List (Int × String))
    (hb : goodBlock h b = some (n, cvs)) : parse_step h d b = dictInsert n cvs d := by
  unfold goodBlock at hb
  unfold parse_step
  rcases hps : parse_single_domain h b with ⟨n?, cvs'⟩
  rw [hps] at hb
  cases n? with
  | none => cases hb
  | some nm =>
    simp only at hb ⊢
    by_cases hg : nm ≠ "" ∧ cvs' ≠ []
    · rw [if_pos hg] at hb
      rw [if_pos hg]
      cases hb
      rfl
    · rw [if_neg hg] at hb
      cases hb

/-- Every code map stored in a parsed catalog is nonempty: the guard in
`_parse_domains_from_xml` only stores blocks with at least one valid
coded value. -/
theorem parse_fold_values_ne_nil (h : String → Int) :
    ∀ (bs : List (List Char)) (d : List (String × List (Int × String))),
    (∀ n cm, dictLookup n d = some cm → cm ≠ []) →
    ∀ n cm, dictLookup n (bs.foldl (parse_step h) d) = some cm → cm ≠ [] := by
  intro bs
  induction bs with
  | nil => intro d hd; exact hd
  | cons b bs ih =>
    intro d hd
    have hfold : (b :: bs).foldl (parse_step h) d
        = bs.foldl (parse_step h) (parse_step h d b) := rfl
    rw [hfold]
    apply ih
    intro n cm hlook
    cases hb : goodBlock h b with
    | none =>
      rw [parse_step_of_bad h d b hb] at hlook
      exact hd n cm hlook
    | some p =>
      rw [parse_step_of_good h d b p.1 p.2 (by rw [hb])] at hlook
      rw [dictLookup_dictInsert] at hlook
      by_cases hn : n = p.1
      · rw [if_pos hn] at hlook
        cases hlook
        unfold goodBlock at hb
        rcases hps : parse_single_domain h b with ⟨n?, cvs'⟩
        rw [hps] at hb
        cases n? with
        | none => cases hb
        | some nm =>
          simp only at hb
          by_cases hg : nm ≠ "" ∧ cvs' ≠ []
          · rw [if_pos hg] at hb
            cases hb
            exact hg.2
          · rw [if_neg hg] at hb
            cases hb
      · rw [if_neg hn] at hlook
        exact hd n cm hlook

/-- The catalog produced by the tolerant file scan maps names to nonempty
code maps. -/
theorem parse_lookup_ne_nil (h : String → Int) (xml : String) (n : String)
    (cm : List (Int × String))
    (hl : dictLookup n (parse_domains_from_xml h xml) = some cm) : cm ≠ [] := by
  have h0 : ∀ n cm, dictLookup n ([] : List (String × List (Int × String))) = some cm → cm ≠ [] := by
    intro n cm hc
    cases hc
  exact parse_fold_values_ne_nil h (domain_blocks xml.toList) [] h0 n cm hl

/-- C4: when a field declares a domain name present in the parsed domain
catalog, the per-field extraction returns that catalog code map verbatim
and invokes only tier 1 — none of layer metadata, datasource metadata,
field metadata, or raw-data sampling runs for that field. -/
theorem C4_catalog_short_circuit (h : String → Int) (xml : String)
    (fd : FieldDef) (dn : String) (cm : List (Int × String))
    (hdn : fd.domainName = some dn) (hne : dn ≠ "")
    (hcat : dictLookup dn (parse_domains_from_xml h xml) = some cm) :
    extract_domain_for_field (parse_domains_from_xml h xml) fd = (cm, [1]) := by
  have hcm : cm ≠ [] := parse_lookup_ne_nil h xml dn cm hcat
  unfold extract_domain_for_field
  rw [hdn]
  simp [pyTruthyStr, hne, hcat, hcm]

theorem C4_catalog_short_circuit_witness :
    tierField.domainName = some "D" ∧ (("D" : String) ≠ "") ∧
    dictLookup "D" (parse_domains_from_xml (fun _ => 0) tierXml) = some [(1, "x")] ∧
    extract_domain_for_field (parse_domains_from_xml (fun _ => 0) tierXml) tierField
      = ([(1, "x")], [1]) :=
  ⟨rfl, by decide, rfl,
   C4_catalog_short_circuit (fun _ => 0) tierXml tierField "D" [(1, "x")]
     rfl (by decide) rfl⟩

/-! ## Claim C8: bad blocks are dropped; name collisions are last-write-wins -/

/-- Looking a name up in the folded catalog finds the value of the LAST
surviving block carrying that name, falling back to the initial state. -/
theorem parse_fold_lookup (h : String → Int) (n : String) :
    ∀ (bs : List (List Char)) (d : List (String × List (Int × String))),
    dictLookup n (bs.foldl (parse_step h) d) =
      match lastAssoc n (bs.filterMap (goodBlock h)) with
      | some v => some v
      | none => dictLookup n d := by
  intro bs
  induction bs with
  | nil => intro d; rfl
  | cons b bs ih =>
    intro d
    have hfold : (b :: bs).foldl (parse_step h) d
        = bs.foldl (parse_step h) (parse_step h d b) := rfl
    rw [hfold, ih]
    cases hb : goodBlock h b with
    | none =>
      rw [parse_step_of_bad h d b hb]
      simp [List.filterMap_cons, hb]
    | some p =>
      rw [parse_step_of_good h d b p.1 p.2 (by rw [hb])]
      simp only [List.filterMap_cons, hb]
      cases hl : lastAssoc n (bs.filterMap (goodBlock h)) with
      | some v => simp [lastAssoc, hl]
      | none =>
        simp only [lastAssoc, hl, dictLookup_dictInsert]
        by_cases hn : n = p.1
        · rw [if_pos hn, if_pos (hn.symm)]
        · rw [if_neg hn, if_neg (fun hh => hn hh.symm)]

/-- C8: for every input text, a domain block missing a domain name or
containing no valid coded value contributes nothing to the parse result,
and when several surviving blocks share a name, the one processed later
overwrites the earlier ones — the result maps each name to the code map
of the LAST surviving block carrying it. -/
theorem C8_drop_and_last_write_wins (h : String → Int) (xml : String)
    (d : List (String × List (Int × String))) (b : List Char) (n : String)
    (hbad : (parse_single_domain h b).1 = none ∨ (parse_single_domain h b).2 = []) :
    parse_step h d b = d ∧
    dictLookup n (parse_domains_from_xml h xml)
      = lastAssoc n ((domain_blocks xml.toList).filterMap (goodBlock h)) := by
  constructor
  · apply parse_step_of_bad
    unfold goodBlock
    rcases hps : parse_single_domain h b with ⟨n?, cvs⟩
    rw [hps] at hbad
    cases n? with
    | none => rfl
    | some nm =>
      simp only at hbad ⊢
      rcases hbad with hbad | hbad
      · cases hbad
      · rw [if_neg (fun hg => hg.2 hbad)]
  · unfold parse_domains_from_xml
    rw [parse_fold_lookup]
    cases hl : lastAssoc n ((domain_blocks xml.toList).filterMap (goodBlock h)) with
    | some v => rfl
    | none => rfl

theorem C8_drop_and_last_write_wins_witness :
    ((parse_single_domain (fun _ => 0) "junk".toList).1 = none ∨
     (parse_single_domain (fun _ => 0) "junk".toList).2 = []) ∧
    (parse_step (fun _ => 0) [] "junk".toList = [] ∧
     dictLookup "A" (parse_domains_from_xml (fun _ => 0) "")
       = lastAssoc "A" ((domain_blocks "".toList).filterMap (goodBlock (fun _ => 0)))) :=
  ⟨Or.inl rfl,
   C8_drop_and_last_write_wins (fun _ => 0) "" [] "junk".toList "A" (Or.inl rfl)⟩
